import Mathlib

/-!
Verification of the katello-host-tools plugins against their code.

The development shallowly embeds the Python sources:
  * `src/katello/repos.py` (enabled-repos upload, `EnabledRepoCache`, `UEP`),
  * `src/katello/tracer.py` (`get_apps`),
  * `src/zypper_plugins/tracer_upload.py` (`TracerUploadPlugin`),
  * `src/dnf-plugins/enabled_repos_upload.py` (`EnabledReport`),
  * `src/katello/agent/pulp/libyum.py` and `libdnf.py` (`API.transaction_report`).

External collaborators (the identity certificate, the HTTPS connection, the
file system, the package-manager transaction) are passed in as explicit
values or outcome parameters; the functions below mirror the Python control
flow over them.
-/

namespace Katello

/-! ## JSON-representable Python values -/

mutual
/-- A JSON-representable Python value, as produced by `json.loads` and
compared with `==` in `EnabledRepoCache.is_valid`.  Object entries are kept
in insertion order; the dictionaries compared in this codebase are built by
one constructor (`EnabledRepoCache.data`), so structural equality coincides
with Python `==`. -/
inductive Json where
  | null
  | bool (b : Bool)
  | num (n : Int)
  | str (s : String)
  | arr (elems : JsonArray)
  | obj (entries : JsonObject)
  deriving DecidableEq, Repr

/-- A list of JSON values (a Python list). -/
inductive JsonArray where
  | nil
  | cons (hd : Json) (tl : JsonArray)
  deriving DecidableEq, Repr

/-- Insertion-ordered entries of a JSON object (a Python dict). -/
inductive JsonObject where
  | nil
  | cons (key : String) (value : Json) (tl : JsonObject)
  deriving DecidableEq, Repr
end

/-- Build a `JsonArray` from a Lean list. -/
def JsonArray.ofList : List Json → JsonArray
  | [] => .nil
  | x :: xs => .cons x (ofList xs)

/-! ## `src/katello/repos.py` -/

/-- Outcome of `ConsumerIdentity.read()`: a certificate carrying a consumer
id, or an `IOError` (for example when the client is not registered). -/
inductive ReadOutcome where
  | ok (consumerId : String)
  | ioError
  deriving DecidableEq, Repr

/-- Function `lookup_consumer_id`: the certificate's consumer id, or `None`
when reading the identity certificate raises `IOError`. -/
def lookup_consumer_id : ReadOutcome → Option String
  | .ok cid => some cid
  | .ioError => none

/-- Contents of the cache file `/var/cache/katello-agent/enabled_repos.json`:
`none` when the contents do not parse as JSON (`json.loads` raises
`ValueError`), `some j` when they parse to `j`. -/
abbrev FileContents := Option Json

/-- The file-system state visible to `repos.py`: the cache file, `none` when
the file is absent. -/
structure FS where
  cacheFile : Option FileContents
  deriving DecidableEq, Repr

/-- Class `EnabledRepoCache`: a consumer id and the report content it was
constructed with. -/
structure EnabledRepoCache where
  consumer_id : String
  content : Json
  deriving DecidableEq, Repr

/-- Method `EnabledRepoCache.data`: the dict `{self.consumer_id: self.content}`. -/
def EnabledRepoCache.data (c : EnabledRepoCache) : Json :=
  Json.obj (.cons c.consumer_id c.content .nil)

/-- Method `EnabledRepoCache.is_valid`: `False` when the cache file is absent,
`False` when `json.loads` raises `ValueError`, otherwise whether the parsed
value equals `self.data()`. -/
def EnabledRepoCache.is_valid (c : EnabledRepoCache) (fs : FS) : Bool :=
  match fs.cacheFile with
  | none => false
  | some none => false
  | some (some j) => decide (c.data = j)

/-- Method `EnabledRepoCache.save`: write `json.dumps(self.data())` to the
cache file. -/
def EnabledRepoCache.save (c : EnabledRepoCache) (_fs : FS) : FS :=
  { cacheFile := some (some c.data) }

/-- Outcome of `self.conn.request_put` inside `UEP.report_enabled`. -/
inductive PutOutcome where
  | ok
  | remoteServerExc (msg : String)
  | goneExc (msg : String)
  | otherExc (msg : String)
  deriving DecidableEq, Repr

/-- How a call finished: it returned normally (having written the listed
messages with `error_message`), or it raised an exception. -/
inductive CallResult where
  | returned (stderrMsgs : List String)
  | raised (exc : String)
  deriving DecidableEq, Repr

/-- Method `UEP.report_enabled`: issues the PUT; `RemoteServerException` and
`GoneException` are caught and their text written with `error_message`; any
other exception propagates to the caller. -/
def UEP.report_enabled (outcome : PutOutcome) : CallResult :=
  match outcome with
  | .ok => .returned []
  | .remoteServerExc m => .returned [m]
  | .goneExc m => .returned [m]
  | .otherExc m => .raised m

/-- Observable trace of one `upload_enabled_repos_report` call: the final
file-system state, the bodies of the HTTP PUTs issued (in order), the
messages written to stderr, and the exception propagated, if any. -/
structure UploadTrace where
  fs : FS
  puts : List Json
  stderrMsgs : List String
  raised : Option String
  deriving DecidableEq, Repr

/-- Function `upload_enabled_repos_report`: look up the consumer id (complain
on stderr when there is none), and otherwise PUT the report content and save
the cache unless the cache is already valid.  When `request_put` raises an
exception other than `RemoteServerException` or `GoneException`, it
propagates and `save()` does not run. -/
def upload_enabled_repos_report (ro : ReadOutcome) (content : Json)
    (fs : FS) (outcome : PutOutcome) : UploadTrace :=
  match lookup_consumer_id ro with
  | none =>
      { fs := fs, puts := [],
        stderrMsgs := ["Cannot upload enabled repos report, is this client registered?"],
        raised := none }
  | some consumer_id =>
      let cache : EnabledRepoCache := ⟨consumer_id, content⟩
      if cache.is_valid fs then
        { fs := fs, puts := [], stderrMsgs := [], raised := none }
      else
        match UEP.report_enabled outcome with
        | .returned msgs =>
            { fs := cache.save fs, puts := [content], stderrMsgs := msgs, raised := none }
        | .raised e =>
            { fs := fs, puts := [content], stderrMsgs := [], raised := some e }

/-! ## `src/zypper_plugins/tracer_upload.py` -/

/-- Method `TracerUploadPlugin.collect_data`, as a function of whether the
flag file `/var/run/reboot-needed` exists. -/
def TracerUploadPlugin.collect_data (rebootNeeded : Bool) : Json :=
  if rebootNeeded then
    Json.obj (.cons "kernel"
      (Json.obj (.cons "helper" (.str "You will have to reboot your computer")
        (.cons "type" (.str "static") .nil))) .nil)
  else
    Json.obj .nil

/-- Outcome of `self.upload_tracer_profile()` inside `PLUGINEND`. -/
inductive UploadOutcome where
  | ok
  | raises (exc : String)
  deriving DecidableEq, Repr

/-- Observable trace of `PLUGINEND`: whether an error was logged and whether
the plugin event was acknowledged. -/
structure PluginEndTrace where
  loggedError : Bool
  acked : Bool
  deriving DecidableEq, Repr

/-- Method `TracerUploadPlugin.PLUGINEND`: the upload runs under a bare
`except:` that logs an error; `self.ack()` runs in either case. -/
def TracerUploadPlugin.PLUGINEND (outcome : UploadOutcome) : PluginEndTrace :=
  match outcome with
  | .ok => { loggedError := false, acked := true }
  | .raises _ => { loggedError := true, acked := true }

/-! ## `src/katello/tracer.py` -/

/-- An application row produced by the tracer query function. -/
structure TracerApp where
  name : String
  helper : String
  type : String
  deriving DecidableEq, Repr

/-- The dict `{"helper": app.helper, "type": app.type}` stored per app. -/
def mkTraceEntry (app : TracerApp) : Json :=
  Json.obj (.cons "helper" (.str app.helper) (.cons "type" (.str app.type) .nil))

/-- Python dict assignment `d[k] = v` on an insertion-ordered association
list without duplicate keys: an existing key keeps its position and gets the
new value, a new key is appended. -/
def dictSet : List (String × Json) → String → Json → List (String × Json)
  | [], k, v => [(k, v)]
  | p :: rest, k, v =>
      if p.1 = k then (k, v) :: rest else p :: dictSet rest k v

/-- Python `d.pop(k, None)`: the dict without key `k`. -/
def dictPop (d : List (String × Json)) (k : String) : List (String × Json) :=
  d.filter (fun p => p.1 ≠ k)

/-- Python dict lookup, as an `Option`. -/
def dictGet : List (String × Json) → String → Option Json
  | [], _ => none
  | p :: rest, n => if p.1 = n then some p.2 else dictGet rest n

/-- Function `get_apps`: build the dict of `{name: {helper, type}}` over the
query result (later rows with the same name overwrite earlier ones), and when
`plugin` is truthy pop the keys `"yum"` and `"dnf"`. -/
def get_apps (queryResult : List TracerApp) (plugin : Bool) : List (String × Json) :=
  let apps := queryResult.foldl
    (fun apps app => dictSet apps app.name (mkTraceEntry app)) []
  if plugin then dictPop (dictPop apps "yum") "dnf" else apps

/-- The last app of the query result carrying the given name: the one whose
entry survives in the Python dict. -/
def lastNamed : List TracerApp → String → Option TracerApp
  | [], _ => none
  | a :: rest, n =>
      match lastNamed rest n with
      | some b => some b
      | none => if a.name = n then some a else none

/-! ## `src/dnf-plugins/enabled_repos_upload.py` -/

/-- Function `os.path.basename` for POSIX paths: the part after the last
slash. -/
def basename (p : String) : String :=
  (p.splitOn "/").getLastD ""

/-- A repository as seen through the dnf base: its id, its baseurl list,
whether it is enabled, and the `.repo` file it was loaded from (`none`, or
`some ""`, when it has no repo file — both are falsy in Python). -/
structure Repo where
  id : String
  baseurl : List String
  enabled : Bool
  repofile : Option String
  deriving DecidableEq, Repr

/-- The dnf base, reduced to its repository list; `iter_enabled` yields the
enabled ones in order. -/
structure DnfBase where
  repos : List Repo
  deriving DecidableEq, Repr

/-- The item `dict(repositoryid=r.id, baseurl=r.baseurl)` appended for a
matching repository. -/
def repoEntry (r : Repo) : Json :=
  Json.obj (.cons "repositoryid" (.str r.id)
    (.cons "baseurl" (Json.arr (JsonArray.ofList (r.baseurl.map Json.str))) .nil))

/-- Loop of `EnabledReport.find_enabled` over the enabled repositories:
skip a repository with a falsy `repofile`, skip one whose repo-file basename
differs from `repofn`, append `repoEntry` otherwise. -/
def findEnabledLoop (repofn : String) : List Repo → List Json
  | [] => []
  | r :: rest =>
      match r.repofile with
      | none => findEnabledLoop repofn rest
      | some rf =>
          if rf = "" then findEnabledLoop repofn rest
          else if basename rf ≠ repofn then findEnabledLoop repofn rest
          else repoEntry r :: findEnabledLoop repofn rest

/-- Static method `EnabledReport.find_enabled`: `dict(repos=enabled)` where
`enabled` collects the matching enabled repositories. -/
def EnabledReport.find_enabled (base : DnfBase) (repofn : String) : Json :=
  Json.obj (.cons "repos"
    (Json.arr (JsonArray.ofList
      (findEnabledLoop repofn (base.repos.filter (fun r => r.enabled))))) .nil)

/-- Static method `EnabledReport.generate`: `dict(enabled_repos=find_enabled(db, repofn))`;
the dnf base it opens is passed explicitly. -/
def EnabledReport.generate (base : DnfBase) (repofn : String) : Json :=
  Json.obj (.cons "enabled_repos" (EnabledReport.find_enabled base repofn) .nil)

/-- Constructor `EnabledReport.__init__`: `self.content = generate(basename(path))`. -/
def EnabledReport.content (base : DnfBase) (path : String) : Json :=
  EnabledReport.generate base (basename path)

/-- The predicate selecting the repositories reported for file name `fn`:
a truthy `repofile` whose basename equals `fn`. -/
def Repo.matchesFile (r : Repo) (fn : String) : Bool :=
  match r.repofile with
  | none => false
  | some rf => !(rf = "") && (basename rf = fn)

/-! ## `src/katello/agent/pulp/libyum.py` -/

/-- Transaction states from `yum.constants` (an external collaborator; only
their distinctness matters to this code). -/
def TS_UPDATE : Nat := 10

/-- Transaction state `yum.constants.TS_INSTALL`. -/
def TS_INSTALL : Nat := 20

/-- Transaction state `yum.constants.TS_TRUEINSTALL`. -/
def TS_TRUEINSTALL : Nat := 30

/-- Transaction state `yum.constants.TS_ERASE`. -/
def TS_ERASE : Nat := 40

/-- Transaction state `yum.constants.TS_FAILED`. -/
def TS_FAILED : Nat := 100

/-- A yum package object `t.po`, reduced to the fields the report reads;
`qname` stands for `str(t.po)`. -/
structure YumPo where
  qname : String
  name : String
  ver : String
  rel : String
  arch : String
  epoch : String
  deriving DecidableEq, Repr

/-- A member of a yum transaction (`ts_info`). -/
structure YumTxItem where
  po : YumPo
  output_state : Nat
  repoid : String
  isDep : Bool
  deriving DecidableEq, Repr

/-- The per-package dict built by both `transaction_report` functions. -/
structure PackageDict where
  qname : String
  repoid : String
  name : String
  version : String
  release : String
  arch : String
  epoch : String
  deriving DecidableEq, Repr

/-- The dict built for a yum transaction item. -/
def yumPackageDict (t : YumTxItem) : PackageDict :=
  { qname := t.po.qname, repoid := t.repoid, name := t.po.name,
    version := t.po.ver, release := t.po.rel, arch := t.po.arch,
    epoch := t.po.epoch }

/-- The named tuple `TransactionReport(resolved, deps, failed)`. -/
structure TransactionReport where
  resolved : List PackageDict
  deps : List PackageDict
  failed : List PackageDict
  deriving DecidableEq, Repr

/-- Body of the loop of yum `API.transaction_report`: skip an item whose
`output_state` is not in `states`; append the package to `failed` when the
state is `TS_FAILED`, and then also to `deps` or `resolved` according to
`isDep` (the source has no `continue` after the `failed` append). -/
def yumReportStep (states : List Nat) (acc : TransactionReport)
    (t : YumTxItem) : TransactionReport :=
  if t.output_state ∉ states then acc
  else
    let package := yumPackageDict t
    let acc1 :=
      if t.output_state = TS_FAILED then
        { acc with failed := acc.failed ++ [package] }
      else acc
    if t.isDep then { acc1 with deps := acc1.deps ++ [package] }
    else { acc1 with resolved := acc1.resolved ++ [package] }

/-- Static method yum `API.transaction_report`. -/
def yumTransactionReport (ts_info : List YumTxItem) (states : List Nat) :
    TransactionReport :=
  ts_info.foldl (yumReportStep states) ⟨[], [], []⟩

/-! ## `src/katello/agent/pulp/libdnf.py` -/

/-- A dnf package object, reduced to the fields the report reads; `qname`
stands for `str(po)`. -/
structure DnfPo where
  qname : String
  repoid : String
  name : String
  version : String
  release : String
  arch : String
  epoch : String
  deriving DecidableEq, Repr

/-- A member of a dnf transaction: its installed and erased packages, either
of which may be `None`. -/
structure DnfTxItem where
  installed : Option DnfPo
  erased : Option DnfPo
  deriving DecidableEq, Repr

/-- Python `item.installed or item.erased`. -/
def DnfTxItem.po (item : DnfTxItem) : Option DnfPo :=
  match item.installed with
  | some p => some p
  | none => item.erased

/-- The dict built for a dnf package object. -/
def dnfPackageDict (p : DnfPo) : PackageDict :=
  { qname := p.qname, repoid := p.repoid, name := p.name,
    version := p.version, release := p.release, arch := p.arch,
    epoch := p.epoch }

/-- Loop of dnf `API.transaction_report`: when `po` is truthy the package
dict goes to `resolved`; when `po` is `None` the item is bound for `failed`,
but building `dict(qname=str(po), repoid=po.repoid, ...)` raises
`AttributeError` on `po.repoid`, aborting the whole call. -/
def dnfReportLoop : List DnfTxItem → List PackageDict → List PackageDict →
    Except String (List PackageDict × List PackageDict)
  | [], resolved, failed => .ok (resolved, failed)
  | item :: rest, resolved, failed =>
      match item.po with
      | some p => dnfReportLoop rest (resolved ++ [dnfPackageDict p]) failed
      | none => .error "AttributeError: NoneType object has no attribute repoid"

/-- Static method dnf `API.transaction_report`: the loop result packed into
`TransactionReport(resolved, [], failed)`, or the exception it raised. -/
def dnfTransactionReport (transaction : List DnfTxItem) :
    Except String TransactionReport :=
  match dnfReportLoop transaction [] [] with
  | .ok (resolved, failed) => .ok ⟨resolved, [], failed⟩
  | .error e => .error e

/-! ## Theorems -/

/-- C7: `TracerUploadPlugin.collect_data` returns the dictionary
`{"kernel": {"helper": "You will have to reboot your computer", "type": "static"}}`
when the reboot-needed flag file exists, and the empty dictionary
otherwise. -/
theorem collect_data_reboot_flag :
    TracerUploadPlugin.collect_data true =
      Json.obj (.cons "kernel"
        (Json.obj (.cons "helper" (.str "You will have to reboot your computer")
          (.cons "type" (.str "static") .nil))) .nil)
    ∧ TracerUploadPlugin.collect_data false = Json.obj .nil :=
  ⟨rfl, rfl⟩

/-- C9: when the identity certificate cannot be read (`lookup_consumer_id`
returns `None` because `ConsumerIdentity.read` raises `IOError`),
`upload_enabled_repos_report` writes an error message to stderr and returns
with no HTTP request issued and the cache file untouched. -/
theorem upload_unregistered_no_effect (content : Json) (fs : FS)
    (outcome : PutOutcome) :
    lookup_consumer_id ReadOutcome.ioError = none
    ∧ upload_enabled_repos_report ReadOutcome.ioError content fs outcome =
        { fs := fs, puts := [],
          stderrMsgs := ["Cannot upload enabled repos report, is this client registered?"],
          raised := none } :=
  ⟨rfl, rfl⟩

/-- C4 counterexample: an exception raised by the HTTP PUT that is neither a
`RemoteServerException` nor a `GoneException` is not caught by
`UEP.report_enabled`; the call does not return normally but propagates the
exception. -/
theorem report_enabled_uncaught_exception :
    UEP.report_enabled (PutOutcome.otherExc "Connection reset by peer") =
      CallResult.raised "Connection reset by peer" :=
  rfl

/-- C4 amended: `UEP.report_enabled` catches exactly `RemoteServerException`
and `GoneException` raised by the HTTP PUT, writes an error message and
returns normally, while any other exception propagates; the zypper
`PLUGINEND` catches every exception of the tracer upload, logs an error, and
acknowledges the plugin event in every case. -/
theorem broad_catch_only_logged (m : String) (o : UploadOutcome) :
    UEP.report_enabled (PutOutcome.remoteServerExc m) = CallResult.returned [m]
    ∧ UEP.report_enabled (PutOutcome.goneExc m) = CallResult.returned [m]
    ∧ UEP.report_enabled (PutOutcome.otherExc m) = CallResult.raised m
    ∧ (TracerUploadPlugin.PLUGINEND o).acked = true
    ∧ (∀ e, o = UploadOutcome.raises e →
        (TracerUploadPlugin.PLUGINEND o).loggedError = true) := by
  refine ⟨rfl, rfl, rfl, ?_, ?_⟩
  · cases o <;> rfl
  · intro e he; subst he; rfl

/-- Witness for `broad_catch_only_logged` at a concrete raising upload. -/
theorem broad_catch_only_logged_witness :
    (TracerUploadPlugin.PLUGINEND (UploadOutcome.raises "boom")).acked = true
    ∧ (TracerUploadPlugin.PLUGINEND (UploadOutcome.raises "boom")).loggedError = true :=
  ⟨(broad_catch_only_logged "x" (UploadOutcome.raises "boom")).2.2.2.1,
   (broad_catch_only_logged "x" (UploadOutcome.raises "boom")).2.2.2.2 "boom" rfl⟩

/-- C3: the cache round-trips through its equality check: `data()` is the
one-entry dict `{consumer_id: content}`; after `save()`, `is_valid()` on a
cache with equal consumer id and equal content returns `True`; and
`is_valid()` returns `False` whenever the stored blob parses to a value
different from `{consumer_id: content}`. -/
theorem cache_roundtrip (c c' : EnabledRepoCache) (fs : FS) (j : Json) :
    c.data = Json.obj (.cons c.consumer_id c.content .nil)
    ∧ (c'.consumer_id = c.consumer_id → c'.content = c.content →
        c'.is_valid (c.save fs) = true)
    ∧ (fs.cacheFile = some (some j) → j ≠ c.data → c.is_valid fs = false) := by
  refine ⟨rfl, ?_, ?_⟩
  · intro h1 h2
    simp [EnabledRepoCache.is_valid, EnabledRepoCache.save,
      EnabledRepoCache.data, h1, h2]
  · intro hfile hne
    simp only [EnabledRepoCache.is_valid, hfile]
    exact decide_eq_false (fun h => hne h.symm)

/-- Witness for `cache_roundtrip` at a concrete cache and file state. -/
theorem cache_roundtrip_witness :
    (⟨"cid", Json.null⟩ : EnabledRepoCache).is_valid
      ((⟨"cid", Json.null⟩ : EnabledRepoCache).save ⟨none⟩) = true
    ∧ (⟨"cid", Json.null⟩ : EnabledRepoCache).is_valid
        ⟨some (some (Json.num 0))⟩ = false :=
  ⟨(cache_roundtrip ⟨"cid", Json.null⟩ ⟨"cid", Json.null⟩ ⟨none⟩ (Json.num 0)).2.1 rfl rfl,
   (cache_roundtrip ⟨"cid", Json.null⟩ ⟨"cid", Json.null⟩
      ⟨some (some (Json.num 0))⟩ (Json.num 0)).2.2 rfl (by decide)⟩

/-- C1: for a registered consumer, `upload_enabled_repos_report` issues the
HTTP PUT of the content exactly when the cache is not valid; validity means
the cache file is present, parses as JSON, and parses to
`{consumer_id: content}`; when the cache is valid nothing happens at all;
and at most one PUT is issued per call. -/
theorem upload_put_iff_cache_invalid (ro : ReadOutcome) (cid : String)
    (content : Json) (fs : FS) (outcome : PutOutcome)
    (hreg : lookup_consumer_id ro = some cid) :
    ((upload_enabled_repos_report ro content fs outcome).puts =
        if (⟨cid, content⟩ : EnabledRepoCache).is_valid fs then [] else [content])
    ∧ ((⟨cid, content⟩ : EnabledRepoCache).is_valid fs = true ↔
        fs.cacheFile = some (some (Json.obj (.cons cid content .nil))))
    ∧ ((⟨cid, content⟩ : EnabledRepoCache).is_valid fs = true →
        upload_enabled_repos_report ro content fs outcome =
          { fs := fs, puts := [], stderrMsgs := [], raised := none })
    ∧ (upload_enabled_repos_report ro content fs outcome).puts.length ≤ 1 := by
  have hrep : upload_enabled_repos_report ro content fs outcome =
      (if (⟨cid, content⟩ : EnabledRepoCache).is_valid fs then
        { fs := fs, puts := [], stderrMsgs := [], raised := none }
      else
        match UEP.report_enabled outcome with
        | .returned msgs =>
            { fs := (⟨cid, content⟩ : EnabledRepoCache).save fs,
              puts := [content], stderrMsgs := msgs, raised := none }
        | .raised e =>
            { fs := fs, puts := [content], stderrMsgs := [], raised := some e }) := by
    unfold upload_enabled_repos_report
    rw [hreg]
  refine ⟨?_, ?_, ?_, ?_⟩
  · rw [hrep]
    by_cases hv : (⟨cid, content⟩ : EnabledRepoCache).is_valid fs
    · simp [hv]
    · simp only [hv, if_neg, Bool.false_eq_true, if_false]
      cases outcome <;> simp [UEP.report_enabled]
  · rcases fs with ⟨_ | (_ | j)⟩
    · simp [EnabledRepoCache.is_valid]
    · simp [EnabledRepoCache.is_valid]
    · simp only [EnabledRepoCache.is_valid, decide_eq_true_eq,
        EnabledRepoCache.data, Option.some.injEq]
      exact ⟨fun h => by rw [h], fun h => h.symm⟩
  · intro hv
    rw [hrep, if_pos hv]
  · rw [hrep]
    by_cases hv : (⟨cid, content⟩ : EnabledRepoCache).is_valid fs
    · simp [hv]
    · simp only [hv, Bool.false_eq_true, if_false]
      cases outcome <;> simp [UEP.report_enabled]

/-- Witness for `upload_put_iff_cache_invalid` at a registered consumer with
an absent cache file. -/
theorem upload_put_iff_cache_invalid_witness :
    lookup_consumer_id (ReadOutcome.ok "c1") = some "c1"
    ∧ (upload_enabled_repos_report (ReadOutcome.ok "c1") Json.null ⟨none⟩
        PutOutcome.ok).puts =
      (if (⟨"c1", Json.null⟩ : EnabledRepoCache).is_valid ⟨none⟩ then []
        else [Json.null]) :=
  ⟨rfl, (upload_put_iff_cache_invalid (ReadOutcome.ok "c1") "c1" Json.null
    ⟨none⟩ PutOutcome.ok rfl).1⟩

/-- C8: when the consumer is registered, the cache is not valid, and the PUT
fails with a `RemoteServerException` or `GoneException`, the call still
rewrites the cache file with `{consumer_id: content}`, and a subsequent call
with the same content issues no PUT at all. -/
theorem rejected_upload_still_cached (ro : ReadOutcome) (cid : String)
    (content : Json) (fs : FS) (outcome : PutOutcome) (m : String)
    (outcome2 : PutOutcome)
    (hreg : lookup_consumer_id ro = some cid)
    (hinv : (⟨cid, content⟩ : EnabledRepoCache).is_valid fs = false)
    (hrej : outcome = PutOutcome.remoteServerExc m ∨
      outcome = PutOutcome.goneExc m) :
    (upload_enabled_repos_report ro content fs outcome).fs.cacheFile =
      some (some (Json.obj (.cons cid content .nil)))
    ∧ (upload_enabled_repos_report ro content
        (upload_enabled_repos_report ro content fs outcome).fs outcome2).puts =
      [] := by
  have hput : UEP.report_enabled outcome = CallResult.returned [m] := by
    rcases hrej with h | h <;> subst h <;> rfl
  have h1 : upload_enabled_repos_report ro content fs outcome =
      { fs := { cacheFile := some (some (Json.obj (.cons cid content .nil))) },
        puts := [content], stderrMsgs := [m], raised := none } := by
    unfold upload_enabled_repos_report
    rw [hreg]
    simp only [hinv, Bool.false_eq_true, if_false, hput]
    rfl
  refine ⟨by rw [h1], ?_⟩
  rw [h1]
  unfold upload_enabled_repos_report
  rw [hreg]
  simp [EnabledRepoCache.is_valid, EnabledRepoCache.data]

/-- Witness for `rejected_upload_still_cached`: an empty file system, a
server that rejects the PUT, and a second call that stays silent. -/
theorem rejected_upload_still_cached_witness :
    (upload_enabled_repos_report (ReadOutcome.ok "c8") (Json.bool true) ⟨none⟩
        (PutOutcome.remoteServerExc "410 gone")).fs.cacheFile =
      some (some (Json.obj (.cons "c8" (Json.bool true) .nil)))
    ∧ (upload_enabled_repos_report (ReadOutcome.ok "c8") (Json.bool true)
        (upload_enabled_repos_report (ReadOutcome.ok "c8") (Json.bool true)
          ⟨none⟩ (PutOutcome.remoteServerExc "410 gone")).fs
        PutOutcome.ok).puts = [] :=
  rejected_upload_still_cached (ReadOutcome.ok "c8") "c8" (Json.bool true)
    ⟨none⟩ (PutOutcome.remoteServerExc "410 gone") "410 gone" PutOutcome.ok
    rfl rfl (Or.inl rfl)

/-- Looking a key up after a Python dict assignment: the assigned key maps to
the new value, other keys are unchanged. -/
theorem dictGet_dictSet (d : List (String × Json)) (k n : String) (v : Json) :
    dictGet (dictSet d k v) n = if k = n then some v else dictGet d n := by
  induction d with
  | nil =>
      simp only [dictSet, dictGet]
  | cons p rest ih =>
      simp only [dictSet]
      by_cases hpk : p.1 = k
      · simp only [if_pos hpk, dictGet]
        by_cases hkn : k = n
        · simp [hkn]
        · simp only [if_neg hkn]
          rw [if_neg (by rw [hpk]; exact hkn)]
      · simp only [if_neg hpk, dictGet, ih]
        by_cases hpn : p.1 = n
        · have hkn : ¬ k = n := fun hkn => hpk (hpn.trans hkn.symm)
          simp [hpn, hkn]
        · simp [hpn]

/-- Looking the popped key up after a Python `pop` finds nothing. -/
theorem dictGet_dictPop_self (d : List (String × Json)) (k : String) :
    dictGet (dictPop d k) k = none := by
  induction d with
  | nil => rfl
  | cons p rest ih =>
      by_cases hpk : p.1 = k
      · simpa [dictPop, List.filter_cons, hpk] using ih
      · simpa [dictPop, List.filter_cons, hpk, dictGet] using ih

/-- Looking any other key up after a Python `pop` is unchanged. -/
theorem dictGet_dictPop_ne (d : List (String × Json)) (k n : String)
    (h : ¬ n = k) : dictGet (dictPop d k) n = dictGet d n := by
  induction d with
  | nil => rfl
  | cons p rest ih =>
      by_cases hpk : p.1 = k
      · have hpn : ¬ p.1 = n := fun hpn => h (hpn.symm.trans hpk)
        have hkn : ¬ k = n := fun hkn => h hkn.symm
        simpa [dictPop, List.filter_cons, hpk, dictGet, hpn, hkn] using ih
      · rw [dictPop] at ih ⊢
        rw [List.filter_cons, if_pos (by simp [hpk])]
        simp only [dictGet]
        by_cases hpn : p.1 = n
        · rw [if_pos hpn, if_pos hpn]
        · rw [if_neg hpn, if_neg hpn, ih]

/-- Folding the tracer rows into the dict: the surviving entry for a name is
the one of the last row with that name. -/
theorem dictGet_build (q : List TracerApp) (n : String) :
    ∀ d, dictGet
        (q.foldl (fun apps app => dictSet apps app.name (mkTraceEntry app)) d) n =
      match lastNamed q n with
      | some a => some (mkTraceEntry a)
      | none => dictGet d n := by
  induction q with
  | nil => intro d; simp [lastNamed]
  | cons a rest ih =>
      intro d
      simp only [List.foldl_cons, lastNamed]
      rw [ih]
      cases hrest : lastNamed rest n with
      | some b => simp
      | none =>
          simp only [dictGet_dictSet]
          by_cases han : a.name = n
          · simp [han]
          · simp [han]

/-- C10: `get_apps` maps each reported name to the helper/type dict of the
last row with that name; when `plugin` is truthy the keys `"yum"` and
`"dnf"` are absent, and when it is falsy they are kept if present. -/
theorem get_apps_spec (q : List TracerApp) (plugin : Bool) (n : String) :
    dictGet (get_apps q plugin) n =
      if plugin = true ∧ (n = "yum" ∨ n = "dnf") then none
      else (lastNamed q n).map mkTraceEntry := by
  unfold get_apps
  cases plugin with
  | false =>
      simp only [Bool.false_eq_true, false_and, if_false]
      rw [dictGet_build q n []]
      cases lastNamed q n <;> simp [dictGet]
  | true =>
      simp only [if_true]
      by_cases h1 : n = "dnf"
      · subst h1
        rw [dictGet_dictPop_self]
        simp
      · rw [dictGet_dictPop_ne _ _ _ h1]
        by_cases h2 : n = "yum"
        · subst h2
          rw [dictGet_dictPop_self]
          simp
        · rw [dictGet_dictPop_ne _ _ _ h2, dictGet_build q n []]
          rw [if_neg (by tauto)]
          cases lastNamed q n <;> simp [dictGet]

/-- The `find_enabled` loop keeps exactly the repositories with a truthy
repo file whose basename is the requested one. -/
theorem findEnabledLoop_eq (fn : String) (l : List Repo) :
    findEnabledLoop fn l =
      (l.filter (fun r => r.matchesFile fn)).map repoEntry := by
  induction l with
  | nil => rfl
  | cons r rest ih =>
      simp only [findEnabledLoop, List.filter_cons]
      cases hrf : r.repofile with
      | none =>
          simp [Repo.matchesFile, hrf, ih]
      | some rf =>
          by_cases h1 : rf = ""
          · simp [Repo.matchesFile, hrf, h1, ih]
          · by_cases h2 : basename rf = fn
            · simp [Repo.matchesFile, hrf, h1, h2, ih]
            · simp [Repo.matchesFile, hrf, h1, h2, ih]

/-- C6: `find_enabled` reports exactly the enabled repositories whose repo
file has the requested basename, as `{repositoryid, baseurl}` entries inside
`{"repos": ...}`; the report content wraps that under `"enabled_repos"`,
filtering by the basename of the given path. -/
theorem find_enabled_spec (base : DnfBase) (fn path : String) :
    EnabledReport.find_enabled base fn =
      Json.obj (.cons "repos" (Json.arr (JsonArray.ofList
        ((base.repos.filter (fun r => r.enabled && r.matchesFile fn)).map
          repoEntry))) .nil)
    ∧ EnabledReport.content base path =
        Json.obj (.cons "enabled_repos"
          (EnabledReport.find_enabled base (basename path)) .nil) := by
  constructor
  · unfold EnabledReport.find_enabled
    rw [findEnabledLoop_eq, List.filter_filter]
    have harg : (fun r => Repo.matchesFile r fn && r.enabled) =
        (fun r => r.enabled && Repo.matchesFile r fn) := by
      funext r
      exact Bool.and_comm _ _
    rw [harg]
  · rfl

/-- Folding the yum report step from any accumulator appends, per bucket, the
packages of the considered items that the bucket's condition selects. -/
theorem yumFold_append (states : List Nat) (ts : List YumTxItem) :
    ∀ acc : TransactionReport,
      ts.foldl (yumReportStep states) acc =
        { resolved := acc.resolved ++
            ((ts.filter (fun t =>
              !t.isDep && decide (t.output_state ∈ states))).map yumPackageDict),
          deps := acc.deps ++
            ((ts.filter (fun t =>
              t.isDep && decide (t.output_state ∈ states))).map yumPackageDict),
          failed := acc.failed ++
            ((ts.filter (fun t =>
              decide (t.output_state = TS_FAILED) &&
                decide (t.output_state ∈ states))).map yumPackageDict) } := by
  induction ts with
  | nil => intro acc; simp
  | cons t ts ih =>
      intro acc
      rw [List.foldl_cons, ih]
      by_cases hs : t.output_state ∈ states
      · by_cases hf : t.output_state = TS_FAILED
        · rw [hf] at hs
          by_cases hd : t.isDep = true <;>
            simp [yumReportStep, List.filter_cons, hs, hf, hd]
        · by_cases hd : t.isDep = true <;>
            simp [yumReportStep, List.filter_cons, hs, hf, hd]
      · by_cases hf : t.output_state = TS_FAILED
        · rw [hf] at hs
          by_cases hd : t.isDep = true <;>
            simp [yumReportStep, List.filter_cons, hs, hf, hd]
        · by_cases hd : t.isDep = true <;>
            simp [yumReportStep, List.filter_cons, hs, hf, hd]

/-- The dnf report loop, when it returns, appends to `resolved` exactly the
package dict of every item, leaves the `failed` accumulator untouched, and
implies every item had an installed or erased package. -/
theorem dnfLoop_ok (tx : List DnfTxItem) :
    ∀ (resolved failed : List PackageDict)
      (res : List PackageDict × List PackageDict),
      dnfReportLoop tx resolved failed = Except.ok res →
        res.1 = resolved ++ tx.filterMap (fun item => item.po.map dnfPackageDict)
        ∧ res.2 = failed
        ∧ ∀ item ∈ tx, item.po.isSome := by
  induction tx with
  | nil =>
      intro resolved failed res h
      rw [dnfReportLoop] at h
      cases h
      simp
  | cons item rest ih =>
      intro resolved failed res h
      rw [dnfReportLoop] at h
      cases hpo : item.po with
      | none => rw [hpo] at h; cases h
      | some p =>
          rw [hpo] at h
          obtain ⟨h1, h2, h3⟩ := ih _ _ _ h
          refine ⟨?_, h2, ?_⟩
          · rw [h1, List.filterMap_cons, hpo]
            simp
          · intro i hi
            rcases List.mem_cons.mp hi with rfl | hi
            · rw [hpo]; rfl
            · exact h3 i hi

/-- C2 counterexample: a considered yum transaction item whose `output_state`
is `TS_FAILED` is placed both into `failed` and into `resolved` — the source
has no `continue` after the `failed` append — so a considered item can appear
in two buckets. -/
theorem yum_failed_item_in_two_buckets :
    (yumTransactionReport
        [⟨⟨"p-0:1.0-1.x86_64", "p", "1.0", "1", "x86_64", "0"⟩,
          TS_FAILED, "repo1", false⟩] [TS_FAILED]).resolved =
      [⟨"p-0:1.0-1.x86_64", "repo1", "p", "1.0", "1", "x86_64", "0"⟩]
    ∧ (yumTransactionReport
        [⟨⟨"p-0:1.0-1.x86_64", "p", "1.0", "1", "x86_64", "0"⟩,
          TS_FAILED, "repo1", false⟩] [TS_FAILED]).failed =
      [⟨"p-0:1.0-1.x86_64", "repo1", "p", "1.0", "1", "x86_64", "0"⟩] := by
  exact ⟨by decide, by decide⟩

/-- C2 amended: for yum, every considered transaction item (one whose
`output_state` is in `states`) is placed into exactly one of `resolved` and
`deps` according to `isDep`, and is additionally placed into `failed` exactly
when its `output_state` is `TS_FAILED` (so a considered failed item appears
in two buckets); for dnf, whenever `transaction_report` returns, every item
of the transaction is placed into exactly the `resolved` list, with `deps`
and `failed` empty. -/
theorem transaction_report_buckets (ts_info : List YumTxItem)
    (states : List Nat) (tx : List DnfTxItem) (rep : TransactionReport)
    (hdnf : dnfTransactionReport tx = Except.ok rep) :
    (yumTransactionReport ts_info states =
      { resolved := ((ts_info.filter (fun t =>
            decide (t.output_state ∈ states))).filter (fun t =>
              !t.isDep)).map yumPackageDict,
        deps := ((ts_info.filter (fun t =>
            decide (t.output_state ∈ states))).filter (fun t =>
              t.isDep)).map yumPackageDict,
        failed := ((ts_info.filter (fun t =>
            decide (t.output_state ∈ states))).filter (fun t =>
              decide (t.output_state = TS_FAILED))).map yumPackageDict })
    ∧ rep.resolved = tx.filterMap (fun item => item.po.map dnfPackageDict)
    ∧ rep.deps = []
    ∧ rep.failed = []
    ∧ ∀ item ∈ tx, item.po.isSome := by
  have hyum : yumTransactionReport ts_info states =
      { resolved := ((ts_info.filter (fun t =>
          !t.isDep && decide (t.output_state ∈ states))).map yumPackageDict),
        deps := ((ts_info.filter (fun t =>
          t.isDep && decide (t.output_state ∈ states))).map yumPackageDict),
        failed := ((ts_info.filter (fun t =>
          decide (t.output_state = TS_FAILED) &&
            decide (t.output_state ∈ states))).map yumPackageDict) } := by
    unfold yumTransactionReport
    rw [yumFold_append]
    simp
  have hdnfres :
      rep.resolved = tx.filterMap (fun item => item.po.map dnfPackageDict)
      ∧ rep.deps = [] ∧ rep.failed = []
      ∧ ∀ item ∈ tx, item.po.isSome := by
    unfold dnfTransactionReport at hdnf
    cases hloop : dnfReportLoop tx [] [] with
    | error e => rw [hloop] at hdnf; cases hdnf
    | ok pr =>
        rw [hloop] at hdnf
        obtain ⟨h1, h2, h3⟩ := dnfLoop_ok tx [] [] pr hloop
        cases hdnf
        exact ⟨by simpa using h1, rfl, h2, h3⟩
  refine ⟨?_, hdnfres⟩
  rw [hyum, List.filter_filter, List.filter_filter, List.filter_filter]

/-- Witness for `transaction_report_buckets` at an empty yum transaction and
a one-item dnf transaction whose package was installed. -/
theorem transaction_report_buckets_witness :
    dnfTransactionReport
        [⟨some ⟨"q-0:2-1.noarch", "r2", "q", "2", "1", "noarch", "0"⟩, none⟩] =
      Except.ok
        ⟨[⟨"q-0:2-1.noarch", "r2", "q", "2", "1", "noarch", "0"⟩], [], []⟩
    ∧ (⟨[⟨"q-0:2-1.noarch", "r2", "q", "2", "1", "noarch", "0"⟩], [], []⟩ :
        TransactionReport).resolved =
      [(⟨some ⟨"q-0:2-1.noarch", "r2", "q", "2", "1", "noarch", "0"⟩, none⟩ :
        DnfTxItem)].filterMap (fun item => item.po.map dnfPackageDict) :=
  ⟨rfl,
    (transaction_report_buckets [] []
      [⟨some ⟨"q-0:2-1.noarch", "r2", "q", "2", "1", "noarch", "0"⟩, none⟩]
      ⟨[⟨"q-0:2-1.noarch", "r2", "q", "2", "1", "noarch", "0"⟩], [], []⟩
      rfl).2.1⟩

/-- C5: the dnf reshaping pass is not total: on a transaction item with
neither an installed nor an erased package — the item the code routes toward
the `failed` bucket — building the package dict dereferences `po.repoid`
with `po` being `None`, so `transaction_report` raises `AttributeError`
instead of returning a report. -/
theorem dnf_report_raises_on_po_none :
    dnfTransactionReport [⟨none, none⟩] =
      Except.error "AttributeError: NoneType object has no attribute repoid" :=
  rfl

end Katello
